import Mathlib

/-!
# Verification of the Qt-Calculator expression engine

A shallow embedding of `calculator/core` (tokenizer, parser, evaluator) of the
Qt-Calculator repository, together with theorems settling the specification
claims about it.

Modelling conventions:
* Python strings are `List Char`; `Char.isDigit` / `Char.isAlpha` model
  `str.isnumeric` / `str.isalpha` on the character set the engine accepts.
* Python `int` is `ℤ`; Python `float` is modelled as an exact rational (all
  numeric facts proved here involve only values on which IEEE arithmetic is
  exact), except that a float-typed power whose exact result leaves the
  IEEE double range raises `OverflowError` as in Python (see
  `FLOAT_OVERFLOW_BOUND`).  Python `complex` is a pair of rationals.
* Python exceptions are `Except` errors.  Raw (non-domain) exceptions such as
  `IndexError` or a bare `ValueError` are distinguished from the engine's own
  `ParsingException` / `EvaluationException`.
* The tokenizer main loop and the recursive-descent parser are written with an
  explicit fuel argument; the entry points supply fuel larger than any
  possible recursion depth, so concrete runs always terminate normally.
* The numeric value of a power with a non-integral exponent (an irrational
  real or a genuine complex number) is not representable in `ℚ`; those values
  are supplied by a `PowOracle` parameter and every theorem below holds for
  every oracle.  Only the real/complex classification is decided by the model
  itself, exactly as the source decides it.
-/

/-- Python `str.isnumeric` restricted to the characters the engine handles. -/
def pyIsNumeric (c : Char) : Bool := c.isDigit

/-- Python `str.isalpha` restricted to the characters the engine handles. -/
def pyIsAlpha (c : Char) : Bool := c.isAlpha

/-- `NAME_CHAR_SPECIALS = frozenset(['π', '_'])` from `parser.py`. -/
def NAME_CHAR_SPECIALS : List Char := ['π', '_']

/-- `OperatorAffix` from `constants.py` (`INFIX`/`PREFIX`/`POSTFIX`). -/
inductive Affix where
  | inAff
  | preAff
  | postAff
deriving DecidableEq

/-- `OperatorInfo` from `structs.py`. -/
structure OperatorInfo where
  op : Char
  priority : Nat
  affix : Affix
deriving DecidableEq

/-- `BINOP_TABLE` from `parser.py`. -/
def BINOP_TABLE (c : Char) : Option OperatorInfo :=
  if c = '+' then some ⟨'+', 5, .inAff⟩
  else if c = '-' then some ⟨'-', 5, .inAff⟩
  else if c = '×' then some ⟨'×', 6, .inAff⟩
  else if c = '÷' then some ⟨'÷', 6, .inAff⟩
  else if c = '%' then some ⟨'%', 6, .inAff⟩
  else if c = '^' then some ⟨'^', 7, .inAff⟩
  else none

/-- `UNARYOP_TABLE` from `parser.py`. -/
def UNARYOP_TABLE (c : Char) : Option OperatorInfo :=
  if c = '-' then some ⟨'-', 5, .preAff⟩
  else if c = '+' then some ⟨'+', 5, .preAff⟩
  else if c = '!' then some ⟨'!', 6, .postAff⟩
  else none

/-- `is_op` from `tokenize`: membership in either operator table. -/
def isOpChar (c : Char) : Bool := (BINOP_TABLE c).isSome || (UNARYOP_TABLE c).isSome

/-- `is_name_char` from `tokenize`. -/
def isNameChar (c : Char) : Bool :=
  pyIsAlpha c || pyIsNumeric c || c ∈ NAME_CHAR_SPECIALS

/-- Priority lookup used by `is_higher_or_equal_op_priority`: a missing
entry counts as priority 0. -/
def tablePriority (table : Char → Option OperatorInfo) (c : Char) : Nat :=
  match table c with
  | some oi => oi.priority
  | none => 0

/-- `is_higher_or_equal_op_priority` from `build_expression_tree`. -/
def isHigherOrEqualPriority (o1 o2 : Char) (table : Char → Option OperatorInfo) : Bool :=
  tablePriority table o2 ≤ tablePriority table o1

/-- The numeric payload of a token or literal: Python `int` or `float`
(floats modelled as exact rationals), plus Python `complex` which only
evaluation can produce. -/
inductive PyVal where
  | intV (n : ℤ)
  | floatV (q : ℚ)
  | complexV (re im : ℚ)
deriving DecidableEq

/-- `isinstance(result, complex)`. -/
def PyVal.isComplex : PyVal → Bool
  | .complexV _ _ => true
  | _ => false

/-- The token family from `tokens.py`.  `TokenOpenBracket`/`TokenCloseBracket`
subclass `TokenSymbol` in the source, hence `Token.isSymbol` below covers
them. -/
inductive Token where
  | number (v : PyVal) (pos : Nat)
  | name (s : String) (pos : Nat)
  | symbol (c : Char) (pos : Nat)
  | openBracket (pos : Nat)
  | closeBracket (pos : Nat)
deriving DecidableEq

def Token.pos : Token → Nat
  | .number _ p => p
  | .name _ p => p
  | .symbol _ p => p
  | .openBracket p => p
  | .closeBracket p => p

/-- `isinstance(token, TokenSymbol)` — brackets are subclasses of
`TokenSymbol` in the source. -/
def Token.isSymbol : Token → Bool
  | .symbol _ _ => true
  | .openBracket _ => true
  | .closeBracket _ => true
  | _ => false

def Token.isOpen : Token → Bool
  | .openBracket _ => true
  | _ => false

def Token.isClose : Token → Bool
  | .closeBracket _ => true
  | _ => false

/-- The `.symbol` attribute of a `TokenSymbol` (brackets carry their bracket
character).  Only read behind `isSymbol` guards, exactly as in the source. -/
def Token.sym : Token → Char
  | .symbol c _ => c
  | .openBracket _ => '('
  | .closeBracket _ => ')'
  | _ => ' '

/-- The `.name` attribute of a `TokenName`; only read on name tokens. -/
def Token.nameStr : Token → String
  | .name s _ => s
  | _ => ""

/-- `ParsingException` from `exception.py`.  Its constructor receives the
0-based offset `pos` and stores `pos + 1` in the exposed `pos` field. -/
structure PEx where
  msg : String
  pos : ℤ
deriving DecidableEq

/-- `ParsingException.__init__(self, msg, pos=-1): self.pos = pos + 1`. -/
def PEx.raise (msg : String) (p : ℤ) : PEx := ⟨msg, p + 1⟩

/-- Failure modes of `tokenize`: the engine's own `ParsingException`, plus the
raw Python errors the function can actually leak (`ValueError` from the empty
check or from `float(...)`, `IndexError` from an out-of-range string index),
plus fuel exhaustion (never reached by the entry points). -/
inductive TokFail where
  | parsing (e : PEx)
  | valueError (msg : String)
  | indexError
  | fuelOut
deriving DecidableEq

/-- The states of the number-literal state machine in `read_number`. -/
inductive NState where
  | start
  | int
  | fraction
  | exponent
  | exponentValue
deriving DecidableEq

/-- Targets listed in `state_map` of `read_number` (`'end'` included). -/
inductive NTrans where
  | toInt
  | toFraction
  | toExponent
  | toExponentValue
  | toEnd
deriving DecidableEq

/-- `state_map` from `read_number`. -/
def stateMap : NState → List NTrans
  | .start => [.toInt, .toFraction]
  | .int => [.toFraction, .toExponent, .toEnd]
  | .fraction => [.toExponent, .toEnd]
  | .exponent => [.toExponentValue]
  | .exponentValue => [.toEnd]

/-- The `while` loop of `read_number`: returns the final state, the index one
past the consumed characters, and the final value of `is_end`. -/
def readNumLoop (exp : List Char) : Nat → Nat → NState → Except TokFail (NState × Nat × Bool)
  | 0, _, _ => .error .fuelOut
  | fuel + 1, i, state =>
    match exp.get? i with
    | none => .ok (state, i, false)
    | some c =>
      if pyIsNumeric c then
        readNumLoop exp fuel (i + 1)
          (if state = .start then .int
           else if state = .exponent then .exponentValue
           else state)
      else if c = '.' then
        if NTrans.toFraction ∈ stateMap state then
          readNumLoop exp fuel (i + 1) .fraction
        else
          .error (.parsing (PEx.raise "invalid '.'" i))
      else if pyIsAlpha c then
        if c = 'e' ∨ c = 'E' then
          if NTrans.toExponent ∈ stateMap state then
            readNumLoop exp fuel (i + 1) .exponent
          else
            .error (.parsing (PEx.raise "invalid 'e'" i))
        else
          .error (.parsing (PEx.raise s!"invalid character '{c}'" i))
      else if c = '-' ∨ c = '+' then
        if NTrans.toExponentValue ∈ stateMap state then
          readNumLoop exp fuel (i + 1) .exponentValue
        else
          .ok (state, i, true)
      else
        .ok (state, i, true)

/-- `int(content)` on the all-digit strings reachable from `read_number`. -/
def pyIntParse (cs : List Char) : ℤ :=
  cs.foldl (fun acc c => acc * 10 + ((c.toNat - '0'.toNat : Nat) : ℤ)) 0

/-- Natural value of a digit run. -/
def digitsVal (cs : List Char) : ℕ :=
  cs.foldl (fun acc c => acc * 10 + (c.toNat - '0'.toNat)) 0

/-- `a` to an integer (possibly negative) power, in `ℚ`. -/
def qpowZ (a : ℚ) (n : ℤ) : ℚ :=
  if 0 ≤ n then a ^ n.toNat else (a ^ (-n).toNat)⁻¹

/-- Python `float(content)`: accepts `[sign] digits [. digits] [(e|E) [sign]
digits]` with at least one mantissa digit and, if an exponent marker is
present, at least one exponent digit; rejects everything else (raising
`ValueError` in Python). -/
def pyFloatParse (cs : List Char) : Option ℚ :=
  let (sgn, cs1) : ℚ × List Char :=
    match cs with
    | '+' :: r => (1, r)
    | '-' :: r => (-1, r)
    | r => (1, r)
  let ip := cs1.takeWhile Char.isDigit
  let r1 := cs1.dropWhile Char.isDigit
  let (fp, r2) : List Char × List Char :=
    match r1 with
    | '.' :: r => (r.takeWhile Char.isDigit, r.dropWhile Char.isDigit)
    | _ => ([], r1)
  if ip.length + fp.length = 0 then none
  else
    let mant : ℚ := ((digitsVal (ip ++ fp) : ℤ) : ℚ) / (10 : ℚ) ^ fp.length
    match r2 with
    | [] => some (sgn * mant)
    | e :: r3 =>
      if e = 'e' ∨ e = 'E' then
        let (esgn, r4) : ℤ × List Char :=
          match r3 with
          | '+' :: r => (1, r)
          | '-' :: r => (-1, r)
          | r => (1, r)
        let ed := r4.takeWhile Char.isDigit
        let r5 := r4.dropWhile Char.isDigit
        if ed.length = 0 ∨ r5 ≠ [] then none
        else some (sgn * mant * qpowZ 10 (esgn * (digitsVal ed : ℤ)))
      else none

/-- `read_number` from `tokenize`: runs the state machine from `start`, then
converts the consumed slice.  Returns the produced token and the index one
past it.  The two raw-error branches mirror the source exactly: when the loop
ran off the end of the string without a terminal state the error message
indexes `exp[i]` with `i = len(exp)` (an `IndexError`), and a non-`int` final
state converts via `float(...)`, which raises a bare `ValueError` on slices
like `"3e+"`. -/
def readNumber (exp : List Char) (start : Nat) : Except TokFail (Token × Nat) :=
  match readNumLoop exp (exp.length + 1) start .start with
  | .error e => .error e
  | .ok (state, i, isEnd) =>
    if NTrans.toEnd ∈ stateMap state then
      let content := (exp.drop start).take (i - start)
      if state = .int then
        .ok (.number (.intV (pyIntParse content)) start, i)
      else
        match pyFloatParse content with
        | some q => .ok (.number (.floatV q) start, i)
        | none =>
          let contentStr := String.mk content
          .error (.valueError s!"could not convert string to float: {contentStr}")
    else
      if isEnd then
        let prev := exp.getD (i - 1) ' '
        .error (.parsing (PEx.raise s!"invalid character '{prev}'" ((i : ℤ) - 1)))
      else
        .error .indexError

/-- `read_name` from `tokenize`: consume name characters greedily. -/
def readName (exp : List Char) (start : Nat) : Token × Nat :=
  let nm := (exp.drop start).takeWhile isNameChar
  (.name (String.mk nm) start, start + nm.length)

/-- The main `while` loop of `tokenize`. -/
def tokLoop (exp : List Char) : Nat → Nat → List Token → Except TokFail (List Token)
  | 0, _, _ => .error .fuelOut
  | fuel + 1, i, acc =>
    match exp.get? i with
    | none => .ok acc
    | some c =>
      if isOpChar c || c = ',' then
        tokLoop exp fuel (i + 1) (acc ++ [.symbol c i])
      else if c = '(' then
        tokLoop exp fuel (i + 1) (acc ++ [.openBracket i])
      else if c = ')' then
        tokLoop exp fuel (i + 1) (acc ++ [.closeBracket i])
      else if c = '.' || pyIsNumeric c then
        match readNumber exp i with
        | .ok (tok, i2) => tokLoop exp fuel i2 (acc ++ [tok])
        | .error e => .error e
      else if c = ' ' then
        tokLoop exp fuel (i + 1) acc
      else if isNameChar c then
        let (tok, i2) := readName exp i
        tokLoop exp fuel i2 (acc ++ [tok])
      else
        .error (.parsing (PEx.raise s!"invalid character '{c}'" i))

/-- `tokenize` from `parser.py`.  An empty source raises a bare
`ValueError("exp is empty")` in the source, before the loop starts. -/
def tokenize (s : String) : Except TokFail (List Token) :=
  if s = "" then .error (.valueError "exp is empty")
  else tokLoop s.data (s.data.length + 1) 0 []

/-- The expression-node family from `nodes.py`. -/
inductive ExpNode where
  | numberNode (num : PyVal) (pos : Nat)
  | nameConstantNode (cname : String) (pos : Nat)
  | binaryOpNode (op : Char) (left right : ExpNode) (pos : Nat)
  | unaryOpNode (op : Char) (child : ExpNode) (pos : Nat)
  | funcCallNode (fid : String) (args : List ExpNode) (pos : Nat)

/-- Failure modes of `build_expression_tree`: its `ParsingException`s, the
`IndexError` a raw out-of-range list index would raise, and fuel exhaustion
(never reached by the entry point). -/
inductive BFail where
  | parsing (e : PEx)
  | indexError
  | fuelOut
deriving DecidableEq

/-- `is_unary_op` from `build_expression_tree`. -/
def isUnaryOpChar (c : Char) : Bool := (UNARYOP_TABLE c).isSome

/-- The affix recorded for a unary operator (only read behind
`isUnaryOpChar` guards, as in the source). -/
def unaryAffix (c : Char) : Affix :=
  match UNARYOP_TABLE c with
  | some oi => oi.affix
  | none => .inAff

/-- The mutually recursive reader functions of `build_expression_tree`
(`read_exp_chain`, `read_exp`, `read_bracket_exp`, `read_prefix_unary_exp`,
`read_binary_exp`, `read_func_call` and the argument loop of the latter) are
combined into the single fueled function `parserRun` below, dispatching on a
call descriptor; each source function is then recovered as a wrapper.  This
keeps the recursion structural in the fuel so that concrete runs reduce
definitionally. -/
inductive PCall where
  | chain (index : Nat)
  | exp (index : Nat)
  | bracket (index : Nat)
  | preUnary (index : Nat)
  | binary (index : Nat) (left : ExpNode)
  | fcall (index : Nat)
  | fargs (index : Nat) (args : List ExpNode)

/-- Result of a `parserRun` call: the reader functions return a node and the
next token index; the argument loop returns the collected argument nodes and
the next token index. -/
inductive PRes where
  | node (n : ExpNode) (next : Nat)
  | argsAcc (args : List ExpNode) (next : Nat)

/-- Continue with the node returned by a reader call (the `.argsAcc` arm is
unreachable for reader calls and surfaces as fuel exhaustion). -/
def expectNode (r : Except BFail PRes) (k : ExpNode → Nat → Except BFail PRes) :
    Except BFail PRes :=
  match r with
  | .ok (.node n i) => k n i
  | .ok (.argsAcc _ _) => .error .fuelOut
  | .error e => .error e

/-- `read_postfix_unary_exp` from `build_expression_tree`: wraps `child` in a
postfix unary node, except that when `child` is itself a unary node of
priority less than or equal to the new operator's, the new node is spliced
between `child` and its operand and `child` stays the root. -/
def readPostfixUnaryExp (tl : List Token) (index : Nat) (child : ExpNode) :
    Except BFail PRes :=
  match tl.get? index with
  | none => .error .indexError
  | some token =>
    match child with
    | .unaryOpNode op c cpos =>
      if isHigherOrEqualPriority token.sym op UNARYOP_TABLE then
        .ok (.node (.unaryOpNode op (.unaryOpNode token.sym c token.pos) cpos) (index + 1))
      else
        .ok (.node (.unaryOpNode token.sym child token.pos) (index + 1))
    | _ => .ok (.node (.unaryOpNode token.sym child token.pos) (index + 1))

/-- The body of `build_expression_tree`'s reader functions, one fuel unit per
nested call. -/
def parserRun (tl : List Token) : Nat → PCall → Except BFail PRes
  | 0, _ => .error .fuelOut
  | fuel + 1, call =>
    match call with
    | .chain index =>
      -- `read_exp_chain`
      match tl.get? index with
      | none => .error .indexError
      | some token =>
        let step1 : Except BFail PRes :=
          if token.isSymbol then
            if token.isOpen then parserRun tl fuel (.exp index)
            else if isUnaryOpChar token.sym then
              if unaryAffix token.sym = .preAff then parserRun tl fuel (.preUnary index)
              else .error (.parsing (PEx.raise
                s!"unary operator '{token.sym}' is not a prefix operator" token.pos))
            else .error (.parsing (PEx.raise s!"unexpected symbol '{token.sym}'" token.pos))
          else parserRun tl fuel (.exp index)
        expectNode step1 fun node0 i0 =>
          let step2 : Except BFail PRes :=
            match tl.get? i0 with
            | some nt =>
              if nt.isSymbol ∧ isUnaryOpChar nt.sym then
                if unaryAffix nt.sym = .postAff then readPostfixUnaryExp tl i0 node0
                else .ok (.node node0 i0)
              else .ok (.node node0 i0)
            | none => .ok (.node node0 i0)
          expectNode step2 fun node i =>
            match tl.get? i with
            | none => .ok (.node node i)
            | some nextToken =>
              if nextToken.isClose then .ok (.node node i)
              else if nextToken.isSymbol then
                if nextToken.sym = ',' then .ok (.node node i)
                else if (BINOP_TABLE nextToken.sym).isSome then
                  parserRun tl fuel (.binary i node)
                else .error (.parsing (PEx.raise
                  s!"unexpected symbol '{nextToken.sym}'" nextToken.pos))
              else .error (.parsing (PEx.raise "unexpected token" nextToken.pos))
    | .exp index =>
      -- `read_exp`; when `index` is past the end the source raises a
      -- `ParsingException` at `token_list[-1].pos` (itself an `IndexError`
      -- on an empty token list)
      match tl.get? index with
      | none =>
        match tl.getLast? with
        | some last => .error (.parsing (PEx.raise "unexpected token" last.pos))
        | none => .error .indexError
      | some token =>
        if token.isOpen then parserRun tl fuel (.bracket index)
        else
          match token with
          | .number v p => .ok (.node (.numberNode v p) (index + 1))
          | .name s p =>
            if (tl.get? (index + 1)).any Token.isOpen then parserRun tl fuel (.fcall index)
            else .ok (.node (.nameConstantNode s p) (index + 1))
          | .symbol c p => .error (.parsing (PEx.raise s!"unexpected symbol '{c}'" p))
          | .closeBracket p => .error (.parsing (PEx.raise s!"unexpected symbol ')'" p))
          | .openBracket _ => .error .indexError
    | .bracket index =>
      -- `read_bracket_exp`
      expectNode (parserRun tl fuel (.chain (index + 1))) fun node i =>
        if (tl.get? i).any Token.isClose then .ok (.node node (i + 1))
        else
          match tl.get? index with
          | some t => .error (.parsing (PEx.raise "unmatch '('" t.pos))
          | none => .error .indexError
    | .preUnary index =>
      -- `read_prefix_unary_exp`
      expectNode (parserRun tl fuel (.exp (index + 1))) fun node i =>
        match tl.get? index with
        | some token => .ok (.node (.unaryOpNode token.sym node token.pos) i)
        | none => .error .indexError
    | .binary index left =>
      -- `read_binary_exp`: parse the right operand chain, then rotate once
      -- when the right subtree is an unbracketed binary node whose root
      -- operator does not outrank the current operator
      expectNode (parserRun tl fuel (.chain (index + 1))) fun right i =>
        match tl.get? index with
        | none => .error .indexError
        | some token =>
          match right with
          | .binaryOpNode rop rleft rright rpos =>
            match tl.get? (index + 1) with
            | none => .error .indexError
            | some t1 =>
              if ¬ t1.isOpen ∧ isHigherOrEqualPriority token.sym rop BINOP_TABLE then
                .ok (.node (.binaryOpNode rop
                  (.binaryOpNode token.sym left rleft token.pos) rright rpos) i)
              else
                .ok (.node (.binaryOpNode token.sym left right token.pos) i)
          | _ => .ok (.node (.binaryOpNode token.sym left right token.pos) i)
    | .fcall index =>
      -- `read_func_call`
      match tl.get? index with
      | none => .error .indexError
      | some nameToken =>
        match parserRun tl fuel (.fargs (index + 2) []) with
        | .error e => .error e
        | .ok (.node _ _) => .error .fuelOut
        | .ok (.argsAcc args i) =>
          if (tl.get? i).any Token.isClose then
            .ok (.node (.funcCallNode nameToken.nameStr args nameToken.pos) (i + 1))
          else
            .error (.parsing (PEx.raise "unclose func call" nameToken.pos))
    | .fargs i args =>
      -- the argument `while` loop of `read_func_call`
      if i < tl.length ∧ ¬ (tl.get? i).any Token.isClose then
        expectNode (parserRun tl fuel (.chain i)) fun node i2 =>
          if (tl.get? i2).any (fun t => t.isSymbol ∧ t.sym = ',') then
            parserRun tl fuel (.fargs (i2 + 1) (args ++ [node]))
          else
            .ok (.argsAcc (args ++ [node]) i2)
      else
        .ok (.argsAcc args i)

/-- `read_exp_chain` from `build_expression_tree`. -/
def readExpChain (tl : List Token) (fuel index : Nat) : Except BFail PRes :=
  parserRun tl fuel (.chain index)

/-- `read_exp` from `build_expression_tree`. -/
def readExp (tl : List Token) (fuel index : Nat) : Except BFail PRes :=
  parserRun tl fuel (.exp index)

/-- `read_bracket_exp` from `build_expression_tree`. -/
def readBracketExp (tl : List Token) (fuel index : Nat) : Except BFail PRes :=
  parserRun tl fuel (.bracket index)

/-- `read_prefix_unary_exp` from `build_expression_tree`. -/
def readPrefixUnaryExp (tl : List Token) (fuel index : Nat) : Except BFail PRes :=
  parserRun tl fuel (.preUnary index)

/-- `read_binary_exp` from `build_expression_tree`. -/
def readBinaryExp (tl : List Token) (fuel index : Nat) (left : ExpNode) : Except BFail PRes :=
  parserRun tl fuel (.binary index left)

/-- `read_func_call` from `build_expression_tree`. -/
def readFuncCall (tl : List Token) (fuel index : Nat) : Except BFail PRes :=
  parserRun tl fuel (.fcall index)

/-- The argument `while` loop of `read_func_call`. -/
def funcArgLoop (tl : List Token) (fuel i : Nat) (args : List ExpNode) : Except BFail PRes :=
  parserRun tl fuel (.fargs i args)

/-- `build_expression_tree` from `parser.py`.  The fuel supplied is larger
than any recursion depth reachable on the given token list. -/
def buildExpressionTree (tl : List Token) : Except BFail ExpNode :=
  match readExpChain tl (2 * tl.length + 2) 0 with
  | .error e => .error e
  | .ok (.argsAcc _ _) => .error .fuelOut
  | .ok (.node node i) =>
    match tl.get? i with
    | none => .ok node
    | some lastToken =>
      if lastToken.isClose then .error (.parsing (PEx.raise "unmatch ')'" lastToken.pos))
      else .error (.parsing (PEx.raise "unexpected token" lastToken.pos))

/-- Failures of `parse_expression`: either tokenizer or tree-builder ones. -/
inductive PFail where
  | tok (e : TokFail)
  | build (e : BFail)
deriving DecidableEq

/-- `parse_expression` from `parser.py`. -/
def parseExpression (s : String) : Except PFail ExpNode :=
  match tokenize s with
  | .error e => .error (.tok e)
  | .ok tl =>
    match buildExpressionTree tl with
    | .error e => .error (.build e)
    | .ok node => .ok node

/-- The raw Python arithmetic exceptions the modelled primitives can raise:
`ZeroDivisionError`, `ValueError` (factorial domain), `TypeError`
(e.g. `%` on a complex operand), and `OverflowError` (a float power whose
result exceeds the IEEE double range).  The evaluator's `except` clauses
catch exactly the first two. -/
inductive PyErr where
  | zeroDiv
  | valueErr
  | typeErr
  | overflowErr
deriving DecidableEq

/-- `EvaluationException` from `exception.py`: message plus optional wrapped
inner failure kind. -/
structure EExc where
  msg : String
  inner : Option PyErr
deriving DecidableEq

/-- A failure escaping `_eval_node`: either an `EvaluationException` or a raw
Python exception that its `except` clauses did not catch. -/
inductive EvalFail where
  | exc (e : EExc)
  | raw (e : PyErr)
deriving DecidableEq

/-- Oracle supplying the (irrational or complex) numeric values of powers
with non-integral exponents; the model itself decides only whether such a
power is real or complex, exactly as the source's `isinstance(..., complex)`
check observes it. -/
structure PowOracle where
  rpow : ℚ → ℚ → ℚ
  cpow : PyVal → PyVal → ℚ × ℚ

/-- The trivial oracle used to instantiate theorems whose statements never
depend on oracle values. -/
def O0 : PowOracle := ⟨fun _ _ => 0, fun _ _ => (0, 0)⟩

/-- The real value of a non-complex `PyVal` (only read on non-complex
values). -/
def PyVal.toQ : PyVal → ℚ
  | .intV n => (n : ℚ)
  | .floatV q => q
  | .complexV _ _ => 0

/-- A `PyVal` as a Python complex pair. -/
def PyVal.toC : PyVal → ℚ × ℚ
  | .intV n => ((n : ℚ), 0)
  | .floatV q => (q, 0)
  | .complexV a b => (a, b)

/-- Python `a + b` on the engine's value types. -/
def pyAdd (a b : PyVal) : Except PyErr PyVal :=
  match a, b with
  | .intV m, .intV n => .ok (.intV (m + n))
  | .complexV _ _, _ => .ok (.complexV (a.toC.1 + b.toC.1) (a.toC.2 + b.toC.2))
  | _, .complexV _ _ => .ok (.complexV (a.toC.1 + b.toC.1) (a.toC.2 + b.toC.2))
  | _, _ => .ok (.floatV (a.toQ + b.toQ))

/-- Python `a - b`. -/
def pySub (a b : PyVal) : Except PyErr PyVal :=
  match a, b with
  | .intV m, .intV n => .ok (.intV (m - n))
  | .complexV _ _, _ => .ok (.complexV (a.toC.1 - b.toC.1) (a.toC.2 - b.toC.2))
  | _, .complexV _ _ => .ok (.complexV (a.toC.1 - b.toC.1) (a.toC.2 - b.toC.2))
  | _, _ => .ok (.floatV (a.toQ - b.toQ))

/-- Python `a * b`. -/
def pyMul (a b : PyVal) : Except PyErr PyVal :=
  match a, b with
  | .intV m, .intV n => .ok (.intV (m * n))
  | .complexV _ _, _ =>
    .ok (.complexV (a.toC.1 * b.toC.1 - a.toC.2 * b.toC.2)
                   (a.toC.1 * b.toC.2 + a.toC.2 * b.toC.1))
  | _, .complexV _ _ =>
    .ok (.complexV (a.toC.1 * b.toC.1 - a.toC.2 * b.toC.2)
                   (a.toC.1 * b.toC.2 + a.toC.2 * b.toC.1))
  | _, _ => .ok (.floatV (a.toQ * b.toQ))

/-- Python `a / b` (true division: always float on real operands). -/
def pyDiv (a b : PyVal) : Except PyErr PyVal :=
  match a, b with
  | .complexV _ _, _ =>
    let d := b.toC.1 * b.toC.1 + b.toC.2 * b.toC.2
    if d = 0 then .error .zeroDiv
    else .ok (.complexV ((a.toC.1 * b.toC.1 + a.toC.2 * b.toC.2) / d)
                        ((a.toC.2 * b.toC.1 - a.toC.1 * b.toC.2) / d))
  | _, .complexV _ _ =>
    let d := b.toC.1 * b.toC.1 + b.toC.2 * b.toC.2
    if d = 0 then .error .zeroDiv
    else .ok (.complexV ((a.toC.1 * b.toC.1 + a.toC.2 * b.toC.2) / d)
                        ((a.toC.2 * b.toC.1 - a.toC.1 * b.toC.2) / d))
  | _, _ =>
    if b.toQ = 0 then .error .zeroDiv
    else .ok (.floatV (a.toQ / b.toQ))

/-- Python `a % b`: floor-division remainder on real operands;
`TypeError` on a complex operand. -/
def pyMod (a b : PyVal) : Except PyErr PyVal :=
  match a, b with
  | .complexV _ _, _ => .error .typeErr
  | _, .complexV _ _ => .error .typeErr
  | .intV m, .intV n =>
    if n = 0 then .error .zeroDiv else .ok (.intV (m - n * (Int.fdiv m n)))
  | _, _ =>
    if b.toQ = 0 then .error .zeroDiv
    else .ok (.floatV (a.toQ - b.toQ * (⌊a.toQ / b.toQ⌋ : ℤ)))

/-- Magnitudes at or above `2 ^ 1024` are outside the IEEE double range:
a float-typed power whose exact result reaches it raises `OverflowError` in
Python, as does converting such an `int` to `float`.  (The model flags
overflow at this bound; every value a claim exercises is far from the
rounding boundary.) -/
def FLOAT_OVERFLOW_BOUND : ℚ :=
  179769313486231590772930519078902473361797697894230657273430081157732675805500963132708477322407536021120113879871393357658789768814416622492847430639474124377767893424865485276302219601246094119453082952085005768838150682342462881473913110540827237163350510684586298239947245938479716304835356329624224137216

/-- Python `a ** b`: `int ** nonnegative int` stays `int` (arbitrary
precision, never overflows); any float makes the result float, raising
`OverflowError` when the exact result (or, for a negative integer exponent,
the `float(base)` conversion) leaves the double range; a negative real base
with a non-integral exponent yields a complex value (Python 3 semantics);
`0` to a negative power raises `ZeroDivisionError`. -/
def pyPow (O : PowOracle) (a b : PyVal) : Except PyErr PyVal :=
  match a, b with
  | .complexV _ _, _ => .ok (.complexV (O.cpow a b).1 (O.cpow a b).2)
  | _, .complexV _ _ => .ok (.complexV (O.cpow a b).1 (O.cpow a b).2)
  | .intV m, .intV n =>
    if m = 0 ∧ n < 0 then .error .zeroDiv
    else if 0 ≤ n then .ok (.intV (m ^ n.toNat))
    else if FLOAT_OVERFLOW_BOUND ≤ |(m : ℚ)| then .error .overflowErr
    else .ok (.floatV (qpowZ (m : ℚ) n))
  | _, _ =>
    let qa := a.toQ
    let qb := b.toQ
    if qb.den = 1 then
      if qa = 0 ∧ qb < 0 then .error .zeroDiv
      else if FLOAT_OVERFLOW_BOUND ≤ |qpowZ qa qb.num| then .error .overflowErr
      else .ok (.floatV (qpowZ qa qb.num))
    else
      if qa = 0 ∧ qb < 0 then .error .zeroDiv
      else if qa < 0 then .ok (.complexV (O.cpow a b).1 (O.cpow a b).2)
      else if qa = 0 then .ok (.floatV 0)
      else .ok (.floatV (O.rpow qa qb))

/-- `OP_FUNCTIONS_BINARY` from `evaluator.py`. -/
def OP_FUNCTIONS_BINARY (O : PowOracle) (c : Char) :
    Option (PyVal → PyVal → Except PyErr PyVal) :=
  if c = '+' then some pyAdd
  else if c = '-' then some pySub
  else if c = '×' then some pyMul
  else if c = '÷' then some pyDiv
  else if c = '^' then some (pyPow O)
  else if c = '%' then some pyMod
  else none

/-- Python unary `-a`. -/
def pyNeg (a : PyVal) : Except PyErr PyVal :=
  match a with
  | .intV n => .ok (.intV (-n))
  | .floatV q => .ok (.floatV (-q))
  | .complexV x y => .ok (.complexV (-x) (-y))

/-- Python unary `+a` (identity). -/
def pyPos (a : PyVal) : Except PyErr PyVal := .ok a

/-- `math.factorial`: `ValueError` on a negative or non-integral real
operand, `TypeError` on a complex one. -/
def pyFactorial (a : PyVal) : Except PyErr PyVal :=
  match a with
  | .intV n => if n < 0 then .error .valueErr else .ok (.intV (Nat.factorial n.toNat))
  | .floatV q =>
    if q.den = 1 ∧ 0 ≤ q.num then .ok (.intV (Nat.factorial q.num.toNat))
    else .error .valueErr
  | .complexV _ _ => .error .typeErr

/-- `OP_FUNCTIONS_UNARY` from `evaluator.py`. -/
def OP_FUNCTIONS_UNARY (c : Char) : Option (PyVal → Except PyErr PyVal) :=
  if c = '+' then some pyPos
  else if c = '-' then some pyNeg
  else if c = '!' then some pyFactorial
  else none

/-- A function registered in an `EvaluatorContext`, with the signature data
`inspect.getfullargspec` extracts at call time: the number of declared
positional parameters and how many of them have defaults. -/
structure FuncEntry where
  argCount : Nat
  defaultCount : Nat
  impl : List PyVal → Except PyErr PyVal

/-- The minimum accepted argument count (`max_argc - len(defaults)`). -/
def FuncEntry.minArgc (e : FuncEntry) : Nat := e.argCount - e.defaultCount

/-- `math.pi` as the exact rational value of the IEEE double. -/
def piQ : ℚ := (884279719003555 : ℚ) / 281474976710656

/-- `math.e` as the exact rational value of the IEEE double. -/
def eQ : ℚ := (6121026514868073 : ℚ) / 2251799813685248

/-- `MATH_CONSTANTS` from `constants.py`. -/
def MATH_CONSTANTS : List (String × PyVal) :=
  [("π", .floatV piQ), ("e", .floatV eQ)]

/-- `EvaluatorContext` from `evaluator.py`: constant and function mappings. -/
structure EvaluatorContext where
  constants : List (String × PyVal)
  functions : List (String × FuncEntry)

/-- `EvaluatorContext.__init__`: default constants plus caller overrides
(`dict.update` lets the caller's entries shadow the defaults, which the
first-match `lookup` below reproduces by putting them first). -/
def EvaluatorContext.new (cs : List (String × PyVal)) (fs : List (String × FuncEntry)) :
    EvaluatorContext :=
  ⟨cs ++ MATH_CONSTANTS, fs⟩

/-- The default context built when `Evaluator` is given none. -/
def defaultContext : EvaluatorContext := EvaluatorContext.new [] []

/-- The `try`/`except` wrapper of `_eval_node`: `ZeroDivisionError` and
`ValueError` raised while evaluating one node are re-signalled as
`EvaluationException`s retaining the inner kind; everything else passes
through. -/
def pyConvert (r : Except EvalFail PyVal) : Except EvalFail PyVal :=
  match r with
  | .error (.raw .zeroDiv) => .error (.exc ⟨"zero division", some .zeroDiv⟩)
  | .error (.raw .valueErr) => .error (.exc ⟨"value error", some .valueErr⟩)
  | x => x

/-- Lift a raw arithmetic failure into an in-flight `EvalFail`. -/
def liftRaw (r : Except PyErr PyVal) : Except EvalFail PyVal :=
  match r with
  | .ok v => .ok v
  | .error e => .error (.raw e)

mutual

/-- The per-variant evaluation methods `_eval_number`, `_eval_const`,
`_eval_binary`, `_eval_unary` and `_eval_func_call`; recursive evaluation of
a child node goes through `pyConvert`, i.e. through `_eval_node` (defined as
`evalNode` below the block). -/
def evalBody (O : PowOracle) (ctx : EvaluatorContext) : ExpNode → Except EvalFail PyVal
  | .numberNode v _ => .ok v
  | .nameConstantNode s _ =>
    match ctx.constants.lookup s with
    | some v => .ok v
    | none => .error (.exc ⟨s!"unknown constant '{s}'", none⟩)
  | .unaryOpNode op c _ =>
    match OP_FUNCTIONS_UNARY op with
    | some f =>
      match pyConvert (evalBody O ctx c) with
      | .error e => .error e
      | .ok v => liftRaw (f v)
    | none => .error (.exc ⟨s!"unsupported unary operator '{op}'", none⟩)
  | .binaryOpNode op l r _ =>
    match OP_FUNCTIONS_BINARY O op with
    | some f =>
      match pyConvert (evalBody O ctx l) with
      | .error e => .error e
      | .ok vl =>
        match pyConvert (evalBody O ctx r) with
        | .error e => .error e
        | .ok vr =>
          match f vl vr with
          | .error e => .error (.raw e)
          | .ok res =>
            if res.isComplex then .error (.exc ⟨"invalid expression", none⟩)
            else .ok res
    | none => .error (.exc ⟨s!"unsupported binary operator '{op}'", none⟩)
  | .funcCallNode fid args _ =>
    match ctx.functions.lookup fid with
    | some e =>
      if e.minArgc ≤ args.length ∧ args.length ≤ e.argCount then
        match evalArgs O ctx args with
        | .error err => .error err
        | .ok vs => liftRaw (e.impl vs)
      else
        .error (.exc ⟨s!"incorrect number of arguments passed into function '{fid}'", none⟩)
    | none => .error (.exc ⟨s!"unsupported function '{fid}'", none⟩)
termination_by structural n => n

/-- The argument list comprehension of `_eval_func_call`: evaluate each
argument node left to right, stopping at the first failure. -/
def evalArgs (O : PowOracle) (ctx : EvaluatorContext) : List ExpNode → Except EvalFail (List PyVal)
  | [] => .ok []
  | n :: rest =>
    match pyConvert (evalBody O ctx n) with
    | .error e => .error e
    | .ok v =>
      match evalArgs O ctx rest with
      | .error e => .error e
      | .ok vs => .ok (v :: vs)
termination_by structural l => l

end

/-- `Evaluator._eval_node` from `evaluator.py`: dispatch on the node variant
and convert the raw arithmetic exceptions raised at this level. -/
def evalNode (O : PowOracle) (ctx : EvaluatorContext) (n : ExpNode) : Except EvalFail PyVal :=
  pyConvert (evalBody O ctx n)

/-- A failure of `Evaluator.evaluate` on a string input: parsing failures
propagate from `parse_expression`, evaluation failures from `_eval_node`. -/
inductive TopFail where
  | parseFail (e : PFail)
  | evalFail (e : EvalFail)
deriving DecidableEq

/-- `Evaluator.evaluate` from `evaluator.py` applied to a string expression:
parse, then evaluate the tree. -/
def pyEvaluate (O : PowOracle) (ctx : EvaluatorContext) (s : String) : Except TopFail PyVal :=
  match parseExpression s with
  | .error e => .error (.parseFail e)
  | .ok tree =>
    match evalNode O ctx tree with
    | .error e => .error (.evalFail e)
    | .ok v => .ok v

/-- C1: the claim asserts that every bracket-free chain of three or more
operands joined by equal-priority binary operators parses fully left-nested.
This fails from four operands on: the single top-level rotation in
`read_binary_exp` compares the new operator against the *root* of the
already-rotated right subtree (the chain's last operator) and splices above
its left child, producing `(1 - (2 + 3)) + 4` for `1 - 2 + 3 + 4` (which
evaluates to 0 instead of the left-associative 6) and `(1 ÷ (2 × 4)) × 5`
for `1 ÷ 2 × 4 × 5` (5/8 instead of 10). -/
theorem C1_left_assoc_bug :
    parseExpression "1 - 2 + 3 + 4" = .ok (.binaryOpNode '+'
      (.binaryOpNode '-' (.numberNode (.intV 1) 0)
        (.binaryOpNode '+' (.numberNode (.intV 2) 4) (.numberNode (.intV 3) 8) 6) 2)
      (.numberNode (.intV 4) 12) 10)
    ∧ pyEvaluate O0 defaultContext "1 - 2 + 3 + 4" = .ok (.intV 0)
    ∧ parseExpression "1 ÷ 2 × 4 × 5" = .ok (.binaryOpNode '×'
      (.binaryOpNode '÷' (.numberNode (.intV 1) 0)
        (.binaryOpNode '×' (.numberNode (.intV 2) 4) (.numberNode (.intV 4) 8) 6) 2)
      (.numberNode (.intV 5) 12) 10)
    ∧ pyEvaluate O0 defaultContext "1 ÷ 2 × 4 × 5" = .ok (.floatV (5 / 8)) := by
  refine ⟨rfl, rfl, rfl, ?_⟩
  with_unfolding_all rfl

/-- C2: the claim asserts `tokenize` never fails with an unhandled raw error.
In fact all three listed inputs leak raw errors: `""` raises a bare
`ValueError("exp is empty")`; `"3e"` ends in the `exponent` state and the
error branch formats `exp[i]` with `i = len(exp)`, an out-of-range string
index (`IndexError`); `"3e+"` reaches a terminal state whose consumed slice
`"3e+"` makes `float(...)` raise a bare `ValueError`. -/
theorem C2_tokenize_raw_errors :
    tokenize "3e" = .error .indexError
    ∧ tokenize "" = .error (.valueError "exp is empty")
    ∧ tokenize "3e+" = .error (.valueError "could not convert string to float: 3e+") :=
  ⟨rfl, rfl, rfl⟩

/-- C7: operator priority and explicit bracketing govern evaluation:
`1 + 2 × 3` is 7, `(1 + 2) × 3` is 9, and `1 ÷ 2 × 4` is the float 2
(division binds as `(1 / 2) * 4`). -/
theorem C7_precedence_and_brackets :
    pyEvaluate O0 defaultContext "1 + 2 × 3" = .ok (.intV 7)
    ∧ pyEvaluate O0 defaultContext "(1 + 2) × 3" = .ok (.intV 9)
    ∧ pyEvaluate O0 defaultContext "1 ÷ 2 × 4" = .ok (.floatV 2) := by
  refine ⟨rfl, rfl, ?_⟩
  with_unfolding_all rfl

/-- C10: a prefix unary operator binds only the immediately following atom:
`-2 ^ 2` parses as `(-2) ^ 2` (the unary node is the left operand of the
power) and evaluates to 4, not -4, even though unary minus has lower table
priority than power. -/
theorem C10_prefix_unary_binds_atom :
    parseExpression "-2 ^ 2" = .ok (.binaryOpNode '^'
      (.unaryOpNode '-' (.numberNode (.intV 2) 1) 0) (.numberNode (.intV 2) 5) 3)
    ∧ pyEvaluate O0 defaultContext "-2 ^ 2" = .ok (.intV 4) :=
  ⟨rfl, rfl⟩

/-- Helper for C8: the number state machine is in state `int` at the end of
the scan only if it started the scan in `start` or `int`; since digits keep
the state and every other transition leaves `int` for good, ending in `int`
means the machine never left the integer state. -/
theorem readNumLoop_int_reachable :
    ∀ (exp : List Char) (fuel i : Nat) (s : NState) (j : Nat) (b : Bool),
      readNumLoop exp fuel i s = .ok (.int, j, b) → s = .start ∨ s = .int := by
  intro exp fuel
  induction fuel with
  | zero => intro i s j b h; simp [readNumLoop] at h
  | succ f ih =>
    intro i s j b h
    rw [readNumLoop] at h
    repeat' split at h
    all_goals first
      | cases h
      | (have h2 := ih _ _ _ _ h; cases s <;> simp_all)
    all_goals right
    all_goals rfl

/-- C8: a scanned numeric literal is typed as an exact integer exactly when
the state machine never left the integer state (`read_number` converts with
`int` iff the final state is `int`, and by `readNumLoop_int_reachable` being
in `int` is the same as never having left it): `"100"` tokenizes to the
integer 100 while `"100."`, `".2"` and `"3e10"` tokenize to the floats 100,
1/5 and 30000000000. -/
theorem C8_numeric_literal_typing :
    tokenize "100" = .ok [.number (.intV 100) 0]
    ∧ tokenize "100." = .ok [.number (.floatV 100) 0]
    ∧ tokenize ".2" = .ok [.number (.floatV (1 / 5)) 0]
    ∧ tokenize "3e10" = .ok [.number (.floatV 30000000000) 0]
    ∧ (∀ (exp : List Char) (fuel i : Nat) (s : NState) (j : Nat) (b : Bool),
        readNumLoop exp fuel i s = .ok (.int, j, b) → s = .start ∨ s = .int) := by
  refine ⟨rfl, ?_, ?_, ?_, readNumLoop_int_reachable⟩
  all_goals with_unfolding_all rfl

/-- Witness for C8: the general conjunct applied to the concrete scan of
`"12"`, which ends in state `int` after two characters. -/
theorem C8_numeric_literal_typing_witness :
    NState.start = NState.start ∨ NState.start = NState.int :=
  C8_numeric_literal_typing.2.2.2.2 "12".data 3 0 .start 2 false (by rfl)

/-- C6: when a postfix operator follows an operand that is already a unary
node and its table priority is greater than or equal to that node's
priority, `read_postfix_unary_exp` splices the new unary node between the
existing node and its operand and returns the existing node as root; hence
`-3!` parses as `-(3!)` and `2 + -3!` evaluates to -4. -/
theorem C6_postfix_reassociation :
    (∀ (tl : List Token) (index : Nat) (t : Token) (op : Char) (c : ExpNode) (cpos : Nat),
      tl[index]? = some t →
      isHigherOrEqualPriority t.sym op UNARYOP_TABLE = true →
      readPostfixUnaryExp tl index (.unaryOpNode op c cpos) =
        .ok (.node (.unaryOpNode op (.unaryOpNode t.sym c t.pos) cpos) (index + 1)))
    ∧ parseExpression "-3!" =
        .ok (.unaryOpNode '-' (.unaryOpNode '!' (.numberNode (.intV 3) 1) 2) 0)
    ∧ pyEvaluate O0 defaultContext "2 + -3!" = .ok (.intV (-4)) := by
  refine ⟨?_, rfl, rfl⟩
  intro tl index t op c cpos hget hpr
  simp [readPostfixUnaryExp, hget, hpr]

/-- Witness for C6: the splice lemma applied to the factorial token following
the unary-minus node built from `-3`, the exact configuration arising while
parsing `-3!`. -/
theorem C6_postfix_reassociation_witness :
    readPostfixUnaryExp [.symbol '-' 0, .number (.intV 3) 1, .symbol '!' 2] 2
        (.unaryOpNode '-' (.numberNode (.intV 3) 1) 0) =
      .ok (.node (.unaryOpNode '-' (.unaryOpNode '!' (.numberNode (.intV 3) 1) 2) 0) 3) :=
  C6_postfix_reassociation.1 _ 2 (.symbol '!' 2) '-' (.numberNode (.intV 3) 1) 0 rfl (by rfl)

mutual

def ExpNode.realLiterals : ExpNode → Prop
  | .numberNode num _ => num.isComplex = false
  | .nameConstantNode _ _ => True
  | .binaryOpNode _ l r _ => l.realLiterals ∧ r.realLiterals
  | .unaryOpNode _ c _ => c.realLiterals
  | .funcCallNode _ args _ => ExpNode.realLiteralsList args
termination_by structural n => n

def ExpNode.realLiteralsList : List ExpNode → Prop
  | [] => True
  | a :: rest => a.realLiterals ∧ ExpNode.realLiteralsList rest
termination_by structural l => l

end

theorem pyConvert_ok (r : Except EvalFail PyVal) (v : PyVal) :
    pyConvert r = .ok v ↔ r = .ok v := by
  cases r with
  | ok w => simp [pyConvert]
  | error e =>
    cases e with
    | exc x => simp [pyConvert]
    | raw x => cases x <;> simp [pyConvert]

/-- The `try`/`except` wrapper lets exactly the raw `TypeError` and
`OverflowError` through (it catches `ZeroDivisionError` and `ValueError`). -/
theorem pyConvert_raw (r : Except EvalFail PyVal) (e : PyErr) :
    pyConvert r = .error (.raw e) →
      (e = .typeErr ∨ e = .overflowErr) ∧ r = .error (.raw e) := by
  intro h
  cases r with
  | ok w => simp [pyConvert] at h
  | error f =>
    cases f with
    | exc x => simp [pyConvert] at h
    | raw x => cases x <;> simp_all [pyConvert]

def EvaluatorContext.realValued (ctx : EvaluatorContext) : Prop :=
  (∀ s v, ctx.constants.lookup s = some v → v.isComplex = false)
  ∧ (∀ f e, ctx.functions.lookup f = some e →
      ∀ vs r, e.impl vs = .ok r → r.isComplex = false)

theorem eval_ok_real (O : PowOracle) (ctx : EvaluatorContext)
    (hctx : ctx.realValued) :
    (n : ExpNode) → n.realLiterals → ∀ v, evalNode O ctx n = .ok v → v.isComplex = false
  | .numberNode num _ => by
    intro hlit v hv
    rw [evalNode, pyConvert_ok] at hv
    simp only [evalBody, Except.ok.injEq] at hv
    exact hv ▸ hlit
  | .nameConstantNode s _ => by
    intro _ v hv
    rw [evalNode, pyConvert_ok] at hv
    simp only [evalBody] at hv
    cases hlook : ctx.constants.lookup s with
    | none => simp only [hlook] at hv; cases hv
    | some w =>
      simp only [hlook, Except.ok.injEq] at hv
      exact hv ▸ hctx.1 s w hlook
  | .unaryOpNode op c _ => by
    intro hlit v hv
    have ih := eval_ok_real O ctx hctx c hlit
    rw [evalNode, pyConvert_ok] at hv
    simp only [evalBody] at hv
    cases hop : OP_FUNCTIONS_UNARY op with
    | none => simp only [hop] at hv; cases hv
    | some f =>
      simp only [hop] at hv
      cases hchild : pyConvert (evalBody O ctx c) with
      | error e => simp only [hchild] at hv; cases hv
      | ok vc =>
        simp only [hchild] at hv
        have hvc : vc.isComplex = false := ih vc hchild
        unfold OP_FUNCTIONS_UNARY at hop
        split at hop
        · cases hop
          simp only [pyPos, liftRaw, Except.ok.injEq] at hv
          exact hv ▸ hvc
        · split at hop
          · cases hop
            cases vc with
            | intV n => simp only [pyNeg, liftRaw, Except.ok.injEq] at hv; exact hv ▸ rfl
            | floatV q => simp only [pyNeg, liftRaw, Except.ok.injEq] at hv; exact hv ▸ rfl
            | complexV a b => simp [PyVal.isComplex] at hvc
          · split at hop
            · cases hop
              cases vc with
              | intV n =>
                simp only [pyFactorial] at hv
                split at hv
                · simp [liftRaw] at hv
                · simp only [liftRaw, Except.ok.injEq] at hv; exact hv ▸ rfl
              | floatV q =>
                simp only [pyFactorial] at hv
                split at hv
                · simp only [liftRaw, Except.ok.injEq] at hv; exact hv ▸ rfl
                · simp [liftRaw] at hv
              | complexV a b => simp [PyVal.isComplex] at hvc
            · cases hop
  | .binaryOpNode op l r _ => by
    intro _ v hv
    rw [evalNode, pyConvert_ok] at hv
    simp only [evalBody] at hv
    cases hop : OP_FUNCTIONS_BINARY O op with
    | none => simp only [hop] at hv; cases hv
    | some f =>
      simp only [hop] at hv
      cases h1 : pyConvert (evalBody O ctx l) with
      | error e => simp only [h1] at hv; cases hv
      | ok vl =>
        simp only [h1] at hv
        cases h2 : pyConvert (evalBody O ctx r) with
        | error e => simp only [h2] at hv; cases hv
        | ok vr =>
          simp only [h2] at hv
          cases hres : f vl vr with
          | error e => simp only [hres] at hv; cases hv
          | ok res =>
            simp only [hres] at hv
            cases hcx : res.isComplex with
            | true => simp [hcx] at hv
            | false => simp [hcx] at hv; exact hv ▸ hcx
  | .funcCallNode fid args _ => by
    intro _ v hv
    rw [evalNode, pyConvert_ok] at hv
    simp only [evalBody] at hv
    cases hlook : ctx.functions.lookup fid with
    | none => simp only [hlook] at hv; cases hv
    | some e =>
      simp only [hlook] at hv
      split at hv
      · cases hargs : evalArgs O ctx args with
        | error err => simp only [hargs] at hv; cases hv
        | ok vs =>
          simp only [hargs] at hv
          cases himpl : e.impl vs with
          | error err => simp only [himpl, liftRaw] at hv; cases hv
          | ok r =>
            simp only [himpl, liftRaw, Except.ok.injEq] at hv
            exact hv ▸ hctx.2 fid e hlook vs r himpl
      · cases hv
termination_by structural n => n

/-- On non-complex operands, no binary operator function raises `TypeError`:
`+`, `-`, `×` never raise; `÷`, `%` and `^` raise at most
`ZeroDivisionError`. -/
theorem binop_real_no_typeErr (O : PowOracle) (op : Char)
    (f : PyVal → PyVal → Except PyErr PyVal) (hop : OP_FUNCTIONS_BINARY O op = some f)
    (a b : PyVal) (ha : a.isComplex = false) (hb : b.isComplex = false) :
    f a b ≠ .error .typeErr := by
  unfold OP_FUNCTIONS_BINARY at hop
  repeat' split at hop
  all_goals cases hop
  all_goals
    (cases a <;> cases b <;>
      simp_all [pyAdd, pySub, pyMul, pyDiv, pyMod, pyPow, PyVal.isComplex] <;>
      (repeat' split) <;> simp_all)

/-- On a non-complex operand, no unary operator function raises `TypeError`:
`+` and `-` never raise; `!` raises at most `ValueError`. -/
theorem unop_real_no_typeErr (op : Char) (f : PyVal → Except PyErr PyVal)
    (hop : OP_FUNCTIONS_UNARY op = some f) (a : PyVal) (ha : a.isComplex = false) :
    f a ≠ .error .typeErr := by
  unfold OP_FUNCTIONS_UNARY at hop
  repeat' split at hop
  all_goals cases hop
  all_goals
    (cases a <;>
      simp_all [pyPos, pyNeg, pyFactorial, PyVal.isComplex] <;>
      (repeat' split) <;> simp_all)

/-- Registered functions raise no raw `TypeError` themselves (they may raise
`ZeroDivisionError` or `ValueError`, which the evaluator's `except` clauses
catch). -/
def EvaluatorContext.tameFunctions (ctx : EvaluatorContext) : Prop :=
  ∀ f e, ctx.functions.lookup f = some e → ∀ vs, e.impl vs ≠ .error .typeErr

mutual

/-- Under a real-valued context with tame functions and real literals, no raw
`TypeError` escapes `_eval_node`: the only sources of a `TypeError` would be
a complex operand to `%`, `!` or a power, or an ill-behaved registered
function, and the hypotheses rule both out.  (`ZeroDivisionError` and
`ValueError` are converted at the raising node; `OverflowError` from a float
power remains possible — see `eval_raw_only_overflow`.) -/
theorem eval_no_raw_typeErr (O : PowOracle) (ctx : EvaluatorContext)
    (hctx : ctx.realValued) (htame : ctx.tameFunctions) :
    (n : ExpNode) → n.realLiterals → evalNode O ctx n ≠ .error (.raw .typeErr)
  | .numberNode num _ => by
    intro _ h
    rw [evalNode] at h
    obtain ⟨he, h2⟩ := pyConvert_raw _ _ h
    simp [evalBody] at h2
  | .nameConstantNode s _ => by
    intro _ h
    rw [evalNode] at h
    obtain ⟨he, h2⟩ := pyConvert_raw _ _ h
    simp only [evalBody] at h2
    cases hlook : ctx.constants.lookup s with
    | none => simp [hlook] at h2
    | some w => simp [hlook] at h2
  | .unaryOpNode op c _ => by
    intro hlit h
    rw [evalNode] at h
    obtain ⟨he, h2⟩ := pyConvert_raw _ _ h
    simp only [evalBody] at h2
    cases hop : OP_FUNCTIONS_UNARY op with
    | none => simp [hop] at h2
    | some f =>
      simp only [hop] at h2
      cases hchild : pyConvert (evalBody O ctx c) with
      | error ce =>
        simp only [hchild] at h2
        injection h2 with h3
        exact eval_no_raw_typeErr O ctx hctx htame c hlit (h3 ▸ hchild)
      | ok vc =>
        simp only [hchild] at h2
        have hvc := eval_ok_real O ctx hctx c hlit vc hchild
        have hfe : f vc = .error .typeErr := by
          cases hfv : f vc with
          | ok w => simp [hfv, liftRaw] at h2
          | error pe =>
            simp only [hfv, liftRaw] at h2
            injection h2 with h3
            injection h3 with h4
            rw [h4]
        exact unop_real_no_typeErr op f hop vc hvc hfe
  | .binaryOpNode op l r _ => by
    intro hlit h
    rw [evalNode] at h
    obtain ⟨he, h2⟩ := pyConvert_raw _ _ h
    simp only [evalBody] at h2
    cases hop : OP_FUNCTIONS_BINARY O op with
    | none => simp [hop] at h2
    | some f =>
      simp only [hop] at h2
      cases h1 : pyConvert (evalBody O ctx l) with
      | error ce =>
        simp only [h1] at h2
        injection h2 with h3
        exact eval_no_raw_typeErr O ctx hctx htame l hlit.1 (h3 ▸ h1)
      | ok vl =>
        simp only [h1] at h2
        cases hr : pyConvert (evalBody O ctx r) with
        | error ce =>
          simp only [hr] at h2
          injection h2 with h3
          exact eval_no_raw_typeErr O ctx hctx htame r hlit.2 (h3 ▸ hr)
        | ok vr =>
          simp only [hr] at h2
          have hvl := eval_ok_real O ctx hctx l hlit.1 vl h1
          have hvr := eval_ok_real O ctx hctx r hlit.2 vr hr
          have hfe : f vl vr = .error .typeErr := by
            cases hfv : f vl vr with
            | ok res => simp only [hfv] at h2; cases hres : res.isComplex <;> simp [hres] at h2
            | error pe => simp only [hfv] at h2; injection h2 with h3; injection h3 with h4; rw [h4]
          exact binop_real_no_typeErr O op f hop vl vr hvl hvr hfe
  | .funcCallNode fid args _ => by
    intro hlit h
    rw [evalNode] at h
    obtain ⟨he, h2⟩ := pyConvert_raw _ _ h
    simp only [evalBody] at h2
    cases hlook : ctx.functions.lookup fid with
    | none => simp [hlook] at h2
    | some en =>
      simp only [hlook] at h2
      split at h2
      · cases hargs : evalArgs O ctx args with
        | error err =>
          simp only [hargs] at h2
          injection h2 with h3
          exact evalArgs_no_raw_typeErr O ctx hctx htame args hlit (h3 ▸ hargs)
        | ok vs =>
          simp only [hargs] at h2
          have hfe : en.impl vs = .error .typeErr := by
            cases hfv : en.impl vs with
            | ok w => simp [hfv, liftRaw] at h2
            | error pe => simp only [hfv, liftRaw] at h2; injection h2 with h3; injection h3 with h4; rw [h4]
          exact htame fid en hlook vs hfe
      · cases h2
  termination_by structural n => n

/-- `evalArgs` propagates only failures of the argument evaluations, so it
surfaces no raw `TypeError` under the same hypotheses either. -/
theorem evalArgs_no_raw_typeErr (O : PowOracle) (ctx : EvaluatorContext)
    (hctx : ctx.realValued) (htame : ctx.tameFunctions) :
    (l : List ExpNode) → ExpNode.realLiteralsList l → evalArgs O ctx l ≠ .error (.raw .typeErr)
  | [] => by intro _ h; simp [evalArgs] at h
  | a :: rest => by
    intro hlit h
    simp only [evalArgs] at h
    cases hch : pyConvert (evalBody O ctx a) with
    | error ce =>
      simp only [hch] at h
      injection h with h3
      exact eval_no_raw_typeErr O ctx hctx htame a hlit.1 (h3 ▸ hch)
    | ok v =>
      simp only [hch] at h
      cases hrest : evalArgs O ctx rest with
      | error re =>
        simp only [hrest] at h
        injection h with h3
        exact evalArgs_no_raw_typeErr O ctx hctx htame rest hlit.2 (h3 ▸ hrest)
      | ok vs => simp [hrest] at h
  termination_by structural l => l

end

/-- The default context is real-valued: its only entries are the float
constants `π` and `e`, and it registers no functions. -/
theorem defaultContext_realValued : defaultContext.realValued := by
  constructor
  · intro s v h
    simp only [defaultContext, EvaluatorContext.new, MATH_CONSTANTS, List.nil_append,
      List.lookup] at h
    repeat' split at h
    all_goals first
      | (cases h; rfl)
      | simp_all
  · intro f e h
    simp [defaultContext, EvaluatorContext.new, List.lookup] at h

/-- The default context registers no functions, so they are trivially tame. -/
theorem defaultContext_tame : defaultContext.tameFunctions := by
  intro f e h
  simp [defaultContext, EvaluatorContext.new, List.lookup] at h

/-- A context registering one function `f` that ignores its arguments and
returns the complex unit `1j`. -/
def complexFnContext : EvaluatorContext :=
  EvaluatorContext.new [] [("f", ⟨0, 0, fun _ => .ok (.complexV 0 1)⟩)]

/-- Counterexample to C5: with a caller-registered function returning a
complex value, `evaluate` returns that complex value unchanged — the
`isinstance(result, complex)` guard exists only in `_eval_binary`, so
nothing rejects it on the function-call path. -/
theorem C5_complex_escape_counterexample :
    evalNode O0 complexFnContext (.funcCallNode "f" [] 0) = .ok (.complexV 0 1)
    ∧ (PyVal.complexV 0 1).isComplex = true :=
  ⟨rfl, rfl⟩

/-- C5 (amended): for every oracle and every *real-valued* context (constants
and registered-function results are non-complex, as their Python type
annotations promise) and every tree whose literals are non-complex,
`evaluate` never returns a complex number: a complex binary result is
rejected by the `isinstance(result, complex)` check with the
invalid-expression error, and no other node kind can produce one. -/
theorem C5_no_complex_amended :
    ∀ (O : PowOracle) (ctx : EvaluatorContext), ctx.realValued →
      ∀ (n : ExpNode), n.realLiterals →
        ∀ v, evalNode O ctx n = .ok v → v.isComplex = false :=
  fun O ctx hctx n hlit v hv => eval_ok_real O ctx hctx n hlit v hv

/-- Witness for C5: the amended theorem applied to the default context and
the literal tree `7`. -/
theorem C5_no_complex_amended_witness : (PyVal.intV 7).isComplex = false :=
  C5_no_complex_amended O0 defaultContext defaultContext_realValued
    (.numberNode (.intV 7) 0) rfl (.intV 7) rfl

/-- Under a real-valued context with tame functions and real literals, the
only raw Python exception that can escape `_eval_node` is `OverflowError`
(from a float power whose exact result leaves the double range):
`ZeroDivisionError` and `ValueError` are converted at the raising node, and
`TypeError` cannot arise by `eval_no_raw_typeErr`. -/
theorem eval_raw_only_overflow (O : PowOracle) (ctx : EvaluatorContext)
    (hctx : ctx.realValued) (htame : ctx.tameFunctions)
    (n : ExpNode) (hlit : n.realLiterals) (e : PyErr)
    (h : evalNode O ctx n = .error (.raw e)) : e = .overflowErr := by
  rw [evalNode] at h
  obtain ⟨he, -⟩ := pyConvert_raw _ _ h
  cases he with
  | inl h3 =>
    exact absurd (h3 ▸ h) (eval_no_raw_typeErr O ctx hctx htame n hlit)
  | inr h3 => exact h3

set_option maxRecDepth 4000 in
/-- Counterexample to C4's final clause: a float power whose result leaves
the IEEE double range raises `OverflowError`, which the `except` clauses of
`_eval_node` (catching only `ZeroDivisionError` and `ValueError`) let
through, so `evaluate("1e300 ^ 2")` fails with a raw, unwrapped
`OverflowError` rather than an evaluation error. -/
theorem C4_overflow_counterexample :
    pyEvaluate O0 defaultContext "1e300 ^ 2" = .error (.evalFail (.raw .overflowErr)) := by
  with_unfolding_all rfl

/-- C4 (amended): arithmetic failures are re-signalled as
`EvaluationException`s that retain the original kind — `1 ÷ 0` fails as the
zero-division-tagged error, `(-1) ^ 0.5` (a complex power) fails as the
invalid-expression error, and factorial of `-1` or of `0.5` fails as the
value-error-tagged error — but the claim's final clause must be weakened:
float-power overflow escapes `evaluate` as a raw `OverflowError`, so for any
real-valued context with tame functions and any tree with real literals,
`OverflowError` is the *only* raw arithmetic exception that can escape
`_eval_node`. -/
theorem C4_arithmetic_error_wrapping :
    pyEvaluate O0 defaultContext "1 ÷ 0" =
      .error (.evalFail (.exc ⟨"zero division", some .zeroDiv⟩))
    ∧ pyEvaluate O0 defaultContext "(-1) ^ 0.5" =
      .error (.evalFail (.exc ⟨"invalid expression", none⟩))
    ∧ evalNode O0 defaultContext (.unaryOpNode '!' (.numberNode (.intV (-1)) 0) 0) =
      .error (.exc ⟨"value error", some .valueErr⟩)
    ∧ evalNode O0 defaultContext (.unaryOpNode '!' (.numberNode (.floatV (1 / 2)) 0) 0) =
      .error (.exc ⟨"value error", some .valueErr⟩)
    ∧ (∀ (O : PowOracle) (ctx : EvaluatorContext), ctx.realValued → ctx.tameFunctions →
        ∀ (n : ExpNode), n.realLiterals →
          ∀ e, evalNode O ctx n = .error (.raw e) → e = .overflowErr) := by
  refine ⟨?_, ?_, ?_, ?_, eval_raw_only_overflow⟩
  all_goals with_unfolding_all rfl

/-- Witness for C4: by the general conjunct, the evaluation of `1 ÷ 0`
cannot surface the raw `ZeroDivisionError` (it is converted, as the first
conjunct shows). -/
theorem C4_arithmetic_error_wrapping_witness :
    evalNode O0 defaultContext
      (.binaryOpNode '÷' (.numberNode (.intV 1) 0) (.numberNode (.intV 0) 4) 2) ≠
      .error (.raw PyErr.zeroDiv) :=
  fun h =>
    absurd
      (C4_arithmetic_error_wrapping.2.2.2.2 O0 defaultContext defaultContext_realValued
        defaultContext_tame
        (.binaryOpNode '÷' (.numberNode (.intV 1) 0) (.numberNode (.intV 0) 4) 2)
        ⟨rfl, rfl⟩ PyErr.zeroDiv h)
      (by decide)

/-- C9: for a function registered in the context, `_eval_func_call` accepts a
call exactly when the argument count lies in the `[min, max]` range derived
from the signature (`max` = declared positional parameters, `min` = `max`
minus the number of defaults): in range, the arguments are evaluated and the
function invoked on the results; out of range, the call fails with the
'incorrect number of arguments' error naming the function. -/
theorem C9_arity_enforcement :
    ∀ (O : PowOracle) (ctx : EvaluatorContext) (fid : String) (e : FuncEntry)
      (args : List ExpNode) (pos : Nat),
      ctx.functions.lookup fid = some e →
      ((e.minArgc ≤ args.length ∧ args.length ≤ e.argCount) →
        evalNode O ctx (.funcCallNode fid args pos) =
          pyConvert (match evalArgs O ctx args with
            | .error err => .error err
            | .ok vs => liftRaw (e.impl vs)))
      ∧ (¬ (e.minArgc ≤ args.length ∧ args.length ≤ e.argCount) →
        evalNode O ctx (.funcCallNode fid args pos) =
          .error (.exc ⟨s!"incorrect number of arguments passed into function '{fid}'", none⟩)) := by
  intro O ctx fid e args pos hlook
  constructor
  · intro hin
    rw [evalNode]
    simp only [evalBody, hlook]
    rw [if_pos hin]
  · intro hout
    rw [evalNode]
    simp only [evalBody, hlook]
    rw [if_neg hout]
    rfl

/-- A registered function with the Python signature `(a, m=2)`: two declared
positional parameters, one default — `mult` from the repository's own
evaluator test. -/
def multEntry : FuncEntry :=
  ⟨2, 1, fun vs =>
    match vs with
    | [a] => pyMul a (.intV 2)
    | [a, m] => pyMul a m
    | _ => .error .typeErr⟩

/-- A context registering only `mult`. -/
def multContext : EvaluatorContext := EvaluatorContext.new [] [("mult", multEntry)]

/-- Witness for C9: with `mult(a, m=2)` registered, calls with 1 and 2
arguments invoke the function (`mult(10) = 20`, `mult(10, 3) = 30`) while
calls with 0 and 3 arguments fail with the counting error naming `mult`. -/
theorem C9_arity_enforcement_witness :
    evalNode O0 multContext (.funcCallNode "mult" [.numberNode (.intV 10) 5] 0) = .ok (.intV 20)
    ∧ evalNode O0 multContext (.funcCallNode "mult"
        [.numberNode (.intV 10) 5, .numberNode (.intV 3) 9] 0) = .ok (.intV 30)
    ∧ evalNode O0 multContext (.funcCallNode "mult" [] 0) =
        .error (.exc ⟨"incorrect number of arguments passed into function 'mult'", none⟩)
    ∧ evalNode O0 multContext (.funcCallNode "mult"
        [.numberNode (.intV 1) 5, .numberNode (.intV 2) 8, .numberNode (.intV 3) 11] 0) =
        .error (.exc ⟨"incorrect number of arguments passed into function 'mult'", none⟩) := by
  refine ⟨?_, ?_, ?_, ?_⟩
  · rw [(C9_arity_enforcement O0 multContext "mult" multEntry _ 0 rfl).1 (by decide)]; rfl
  · rw [(C9_arity_enforcement O0 multContext "mult" multEntry _ 0 rfl).1 (by decide)]; rfl
  · rw [(C9_arity_enforcement O0 multContext "mult" multEntry _ 0 rfl).2 (by decide)]; rfl
  · rw [(C9_arity_enforcement O0 multContext "mult" multEntry _ 0 rfl).2 (by decide)]; rfl

/-- Counterexample to C3: for the invalid character `$` at 0-based offset 0,
the exposed position field of the raised `ParsingException` is 1, not 0 —
the constructor stores `pos + 1`. -/
theorem C3_position_counterexample :
    tokenize "$" = .error (.parsing ⟨"invalid character '$'", 1⟩)
    ∧ (PEx.raise "invalid character '$'" 0).pos ≠ 0 :=
  ⟨rfl, by decide⟩

/-- C3 (amended): every `ParsingException` exposes, in its position field,
the 0-based offset of the reference character *plus one* (the constructor
stores `pos + 1`): an invalid character at offset `i` exposes `i + 1`, an
unmatched `(` exposes its opening bracket's offset plus one, and an unclosed
function-call argument list exposes the function name token's offset plus
one. -/
theorem C3_position_amended :
    (∀ (exp : List Char) (f i : Nat) (acc : List Token) (c : Char),
      exp[i]? = some c →
      isOpChar c = false → c ≠ ',' → c ≠ '(' → c ≠ ')' → c ≠ '.' →
      pyIsNumeric c = false → c ≠ ' ' → isNameChar c = false →
      tokLoop exp (f + 1) i acc =
        .error (.parsing ⟨s!"invalid character '{c}'", (i : ℤ) + 1⟩))
    ∧ (∀ (tl : List Token) (f index : Nat) (t : Token) (node : ExpNode) (i : Nat),
      tl.get? index = some t →
      readExpChain tl f (index + 1) = .ok (.node node i) →
      (tl.get? i).any Token.isClose = false →
      readBracketExp tl (f + 1) index =
        .error (.parsing ⟨"unmatch '('", (t.pos : ℤ) + 1⟩))
    ∧ (∀ (tl : List Token) (f index : Nat) (t : Token) (args : List ExpNode) (i : Nat),
      tl.get? index = some t →
      funcArgLoop tl f (index + 2) [] = .ok (.argsAcc args i) →
      (tl.get? i).any Token.isClose = false →
      readFuncCall tl (f + 1) index =
        .error (.parsing ⟨"unclose func call", (t.pos : ℤ) + 1⟩)) := by
  refine ⟨?_, ?_, ?_⟩
  · intro exp f i acc c hget h1 h2 h3 h4 h5 h6 h7 h8
    simp [tokLoop, hget, h1, h2, h3, h4, h5, h6, h7, h8, PEx.raise]
  · intro tl f index t node i ht hchain hnc
    have hchain2 : parserRun tl f (.chain (index + 1)) = .ok (.node node i) := hchain
    show parserRun tl (f + 1) (.bracket index) = _
    simp only [parserRun, hchain2, expectNode, hnc, Bool.false_eq_true, if_false, ht,
      PEx.raise]
  · intro tl f index t args i ht hargs hnc
    have hargs2 : parserRun tl f (.fargs (index + 2) []) = .ok (.argsAcc args i) := hargs
    show parserRun tl (f + 1) (.fcall index) = _
    simp only [parserRun, ht, hargs2, hnc, Bool.false_eq_true, if_false, PEx.raise]

/-- Witness for C3: the three amended conjuncts at concrete inputs — the
invalid character `$` at offset 1 of `"1$"`, the unmatched bracket of
`"(1"`, and the unclosed call of `"pow(100,2"`. -/
theorem C3_position_amended_witness :
    tokLoop "1$".data 1 1 [.number (.intV 1) 0] =
      .error (.parsing ⟨"invalid character '$'", 2⟩)
    ∧ readBracketExp [.openBracket 0, .number (.intV 1) 1] 5 0 =
      .error (.parsing ⟨"unmatch '('", 1⟩)
    ∧ readFuncCall [.name "pow" 0, .openBracket 3, .number (.intV 100) 4,
        .symbol ',' 7, .number (.intV 2) 8] 7 0 =
      .error (.parsing ⟨"unclose func call", 1⟩) := by
  refine ⟨?_, ?_, ?_⟩
  · exact C3_position_amended.1 "1$".data 0 1 [.number (.intV 1) 0] '$'
      rfl rfl (by decide) (by decide) (by decide) (by decide) rfl (by decide) rfl
  · exact C3_position_amended.2.1 [.openBracket 0, .number (.intV 1) 1] 4 0
      (.openBracket 0) (.numberNode (.intV 1) 1) 2 rfl rfl rfl
  · exact C3_position_amended.2.2 [.name "pow" 0, .openBracket 3, .number (.intV 100) 4,
      .symbol ',' 7, .number (.intV 2) 8] 6 0 (.name "pow" 0)
      [.numberNode (.intV 100) 4, .numberNode (.intV 2) 8] 5 rfl rfl rfl
